import Mathlib

/-!
Verification of `src/tools/parse_anim_dat.py` (animation .dat decoder).

The Python function `parse_dat` walks a byte buffer three levels deep
(animations, frames, layers).  We embed it shallowly: the buffer is a
`List Nat` of byte values, reads that would overrun the buffer fail the
way the Python runtime fails (`IndexError` for a single-byte subscript,
`struct.error` for a short slice given to `struct.unpack`), and the
`print` calls of a successful run are modelled as a returned trace of
strings.
-/

/-- Errors raised while decoding.  `indexError` models Python raising
`IndexError` on `data[offset]` past the end; `structError needed got`
models `struct.error` when `struct.unpack` receives a slice of `got`
bytes where `needed` were required.  `outOfBounds` is the structured
error kind described by the spec (`OutOfBounds { at_offset, needed_bytes,
available_bytes }`); it is included for comparison and the decoder never
produces it. -/
inductive PErr where
  | indexError : PErr
  | structError (needed got : Nat) : PErr
  | outOfBounds (at_offset needed_bytes available_bytes : Nat) : PErr
deriving DecidableEq, Repr

/-- True exactly on the spec's `OutOfBounds` error kind. -/
def PErr.isOutOfBounds : PErr → Bool
  | .outOfBounds .. => true
  | _ => false

/-- Byte at an offset (0 past the end; callers check bounds first). -/
def byteAt (buf : List Nat) (off : Nat) : Nat :=
  buf.getD off 0

/-- Models `data[offset]`: one unsigned byte, `IndexError` past the end. -/
def readByte (buf : List Nat) (off : Nat) : Except PErr Nat :=
  if off < buf.length then .ok (byteAt buf off)
  else .error .indexError

/-- Models `struct.unpack('>H', data[off:off+2])`: unsigned 16-bit big-endian.
A short slice raises `struct.error`. -/
def readU16be (buf : List Nat) (off : Nat) : Except PErr Nat :=
  if off + 2 ≤ buf.length then .ok (byteAt buf off * 256 + byteAt buf (off + 1))
  else .error (.structError 2 (min 2 (buf.length - off)))

/-- Models `struct.unpack('>I', data[off:off+4])`: unsigned 32-bit big-endian. -/
def readU32be (buf : List Nat) (off : Nat) : Except PErr Nat :=
  if off + 4 ≤ buf.length then
    .ok (byteAt buf off * 16777216 + byteAt buf (off + 1) * 65536 +
         byteAt buf (off + 2) * 256 + byteAt buf (off + 3))
  else .error (.structError 4 (min 4 (buf.length - off)))

/-- Models `struct.unpack('b', data[off:off+1])`: one signed byte. -/
def readI8 (buf : List Nat) (off : Nat) : Except PErr Int :=
  if off + 1 ≤ buf.length then
    .ok (if byteAt buf off < 128 then (byteAt buf off : Int)
         else (byteAt buf off : Int) - 256)
  else .error (.structError 1 (min 1 (buf.length - off)))

/-- A layer's rect, the four 16-bit fields in source order. -/
structure Rect where
  x : Nat
  y : Nat
  w : Nat
  h : Nat
deriving DecidableEq, Repr

/-- One decoded layer (the Python layer dict; `packed_raw` is kept as the
number the hex string renders). -/
structure Layer where
  rect : Rect
  sprite_index : Nat
  x_offset : Int
  y_offset : Int
  transform : Nat
  packed_raw : Nat
deriving DecidableEq, Repr

/-- One decoded frame. -/
structure Frame where
  id : Nat
  delay : Int
  layers : List Layer
deriving DecidableEq, Repr

/-- One decoded animation. -/
structure Animation where
  id : Nat
  frames : List Frame
deriving DecidableEq, Repr

/-- The decoded package (the Python result dict).  `num_packages` is
`none` when the key is absent (`package_id ≠ 0`). -/
structure Package where
  package_id : Nat
  num_packages : Option Nat
  num_animations : Nat
  animations : List Animation
  max_sprite_index : Nat
deriving DecidableEq, Repr

/-- Extraction `sprite_index = (packed >> 23) & 0x1FF`. -/
def unpackSprite (p : Nat) : Nat := (p >>> 23) &&& 0x1FF

/-- Extraction `x_offset = ((packed >> 13) & 0x3FF) - 512`. -/
def unpackX (p : Nat) : Int := (((p >>> 13) &&& 0x3FF : Nat) : Int) - 512

/-- Extraction `y_offset = ((packed >> 3) & 0x3FF) - 512`. -/
def unpackY (p : Nat) : Int := (((p >>> 3) &&& 0x3FF : Nat) : Int) - 512

/-- Extraction `transform = packed & 0x7`. -/
def unpackT (p : Nat) : Nat := p &&& 0x7

/-- One layer: four 16-bit rect reads, one 32-bit packed read, bit-field
extraction, and the `max_sprite_idx` update.  Returns the layer, the new
offset and the new running maximum. -/
def parseLayer (buf : List Nat) (off maxIdx : Nat) :
    Except PErr (Layer × Nat × Nat) := do
  let rx ← readU16be buf off
  let ry ← readU16be buf (off + 2)
  let rw ← readU16be buf (off + 4)
  let rh ← readU16be buf (off + 6)
  let packed ← readU32be buf (off + 8)
  let si := unpackSprite packed
  let m := if si > maxIdx then si else maxIdx
  .ok (⟨⟨rx, ry, rw, rh⟩, si, unpackX packed, unpackY packed,
        unpackT packed, packed⟩, off + 12, m)

/-- Run an indexed sub-decoder `n` times, threading the cursor and the
running `max_sprite_idx`, collecting results in order (the Python
`for _ in range(n): ... append`). -/
def parseCount (f : Nat → Nat → Nat → Except PErr (α × Nat × Nat)) :
    Nat → Nat → Nat → Nat → Except PErr (List α × Nat × Nat)
  | _, 0, off, maxIdx => .ok ([], off, maxIdx)
  | i, n + 1, off, maxIdx => do
    let (a, off1, m1) ← f i off maxIdx
    let (as, off2, m2) ← parseCount f (i + 1) n off1 m1
    .ok (a :: as, off2, m2)

/-- One frame: signed `delay` byte, `num_layers` byte, then that many
layers. -/
def parseFrame (buf : List Nat) (fid off maxIdx : Nat) :
    Except PErr (Frame × Nat × Nat) := do
  let delay ← readI8 buf off
  let nl ← readByte buf (off + 1)
  let (layers, off1, m1) ←
    parseCount (fun _ o m => parseLayer buf o m) 0 nl (off + 2) maxIdx
  .ok (⟨fid, delay, layers⟩, off1, m1)

/-- One animation: `num_frames` byte then that many frames. -/
def parseAnim (buf : List Nat) (aid off maxIdx : Nat) :
    Except PErr (Animation × Nat × Nat) := do
  let nf ← readByte buf off
  let (frames, off1, m1) ← parseCount (parseFrame buf) 0 nf (off + 1) maxIdx
  .ok (⟨aid, frames⟩, off1, m1)

/-- The header: for `package_id = 0` one `num_packages` byte then the
16-bit big-endian `num_animations`; otherwise `num_animations` alone.
Returns the optional `num_packages`, `num_animations` and the cursor. -/
def parseHeader (buf : List Nat) (pid : Nat) :
    Except PErr (Option Nat × Nat × Nat) :=
  if pid = 0 then do
    let np ← readByte buf 0
    let na ← readU16be buf 1
    .ok (some np, na, 3)
  else do
    let na ← readU16be buf 0
    .ok (none, na, 2)

/-- The whole decoder, returning the package, the final cursor (the
`Bytes read` the source prints) and the lines printed on a successful
run. -/
def parseDatFull (buf : List Nat) (pid : Nat) :
    Except PErr (Package × Nat × List String) := do
  let (np, na, off0) ← parseHeader buf pid
  let (anims, offEnd, m) ← parseCount (parseAnim buf) 0 na off0 0
  let headerLines :=
    (match np with
     | some v => ["Num packages: " ++ toString v]
     | none => []) ++ ["Num animations: " ++ toString na]
  let footLines :=
    ["Max sprite index: " ++ toString m,
     "Bytes read: " ++ toString offEnd ++ ", File size: " ++
       toString buf.length]
  .ok (⟨pid, np, na, anims, m⟩, offEnd, headerLines ++ footLines)

/-- The decoder `parse_dat` proper: just the result value. -/
def parse_dat (buf : List Nat) (pid : Nat) : Except PErr Package :=
  (parseDatFull buf pid).map (·.1)

/-- The print trace of a run (empty when the decode raises). -/
def traceOf (r : Except PErr (Package × Nat × List String)) : List String :=
  match r with
  | .ok (_, _, t) => t
  | .error _ => []

/-- All bytes of a buffer are byte-valued, as Python `bytes` guarantees. -/
def BytesOk (buf : List Nat) : Prop := ∀ b ∈ buf, b < 256

instance decBytesOk (buf : List Nat) : Decidable (BytesOk buf) :=
  List.decidableBAll _ buf

/-- Modelled from the spec: the spec describes the four rect fields as
unsigned 16-bit **little-endian** values; this read follows those words
(low byte first) for comparison with `readU16be`, which is what the
source actually calls. -/
def readU16le (buf : List Nat) (off : Nat) : Except PErr Nat :=
  if off + 2 ≤ buf.length then .ok (byteAt buf off + byteAt buf (off + 1) * 256)
  else .error (.structError 2 (min 2 (buf.length - off)))

/-- Re-pack a layer's four extracted sub-fields into the claimed bit
positions: `(sprite_index << 23) | ((x_offset+512) << 13) |
((y_offset+512) << 3) | transform`. -/
def repack (l : Layer) : Nat :=
  l.sprite_index <<< 23 ||| (l.x_offset + 512).toNat <<< 13 |||
    (l.y_offset + 512).toNat <<< 3 ||| l.transform

/-- The error kinds the Python runtime actually raises (never the spec's
`outOfBounds`). -/
def RuntimeErr (e : PErr) : Prop :=
  e = .indexError ∨ ∃ n g, e = .structError n g

/-- The sprite indices of a frame's layers, in order. -/
def Frame.spriteIndices (fr : Frame) : List Nat :=
  fr.layers.map (·.sprite_index)

/-- The sprite indices of an animation, in walk order. -/
def Animation.spriteIndices (a : Animation) : List Nat :=
  (a.frames.map Frame.spriteIndices).flatten

/-- The sprite indices of every layer of a package, in walk order. -/
def Package.spriteIndices (p : Package) : List Nat :=
  (p.animations.map Animation.spriteIndices).flatten

/-- A concrete 18-byte buffer: package 0, one animation, one frame
(delay byte 251 = −5), one layer with rect (10,20,30,40) and packed
value 0x00800000. -/
def bufEx : List Nat :=
  [1, 0, 1, 1, 251, 1, 0, 10, 0, 20, 0, 30, 0, 40, 0, 128, 0, 0]

/-- The layer `bufEx` decodes to. -/
def layerEx : Layer := ⟨⟨10, 20, 30, 40⟩, 1, -512, -512, 0, 8388608⟩

/-- The frame `bufEx` decodes to. -/
def frameEx : Frame := ⟨0, -5, [layerEx]⟩

/-- The animation `bufEx` decodes to. -/
def animEx : Animation := ⟨0, [frameEx]⟩

/-- The package `bufEx` decodes to. -/
def pkgEx : Package := ⟨0, some 1, 1, [animEx], 1⟩

deriving instance DecidableEq for Except

theorem sanity_empty_package : parse_dat [1, 0, 0] 0 =
    .ok ⟨0, some 1, 0, [], 0⟩ := by decide

theorem sanity_one_layer_package :
    parse_dat [1, 0, 1, 1, 251, 1, 0, 10, 0, 20, 0, 30, 0, 40,
      0, 128, 0, 0] 0 =
    .ok ⟨0, some 1, 1, [⟨0, [⟨0, -5,
      [⟨⟨10, 20, 30, 40⟩, 1, -512, -512, 0, 8388608⟩]⟩]⟩], 1⟩ := by decide

theorem exceptBind_ok {α β : Type} {e : Except PErr α} {f : α → Except PErr β}
    {b : β} (h : (e >>= f) = .ok b) : ∃ a, e = .ok a ∧ f a = .ok b := by
  cases e with
  | ok a => exact ⟨a, rfl, h⟩
  | error err => exact Except.noConfusion h

theorem exceptBind_err {α β : Type} {e : Except PErr α} {f : α → Except PErr β}
    {err : PErr} (h : (e >>= f) = .error err) :
    e = .error err ∨ ∃ a, e = .ok a ∧ f a = .error err := by
  cases e with
  | ok a => exact .inr ⟨a, rfl, h⟩
  | error e0 => exact .inl (by cases h; rfl)

theorem readByte_ok {buf : List Nat} {off v : Nat}
    (h : readByte buf off = .ok v) :
    off < buf.length ∧ v = byteAt buf off := by
  unfold readByte at h
  split at h
  · exact ⟨by assumption, by cases h; rfl⟩
  · exact Except.noConfusion h

theorem readByte_err {buf : List Nat} {off : Nat} {e : PErr}
    (h : readByte buf off = .error e) :
    buf.length ≤ off ∧ e = .indexError := by
  unfold readByte at h
  split at h
  · exact Except.noConfusion h
  · exact ⟨by omega, by cases h; rfl⟩

theorem readU16be_ok {buf : List Nat} {off v : Nat}
    (h : readU16be buf off = .ok v) :
    off + 2 ≤ buf.length ∧ v = byteAt buf off * 256 + byteAt buf (off + 1) := by
  unfold readU16be at h
  split at h
  · exact ⟨by assumption, by cases h; rfl⟩
  · exact Except.noConfusion h

theorem readU16be_err {buf : List Nat} {off : Nat} {e : PErr}
    (h : readU16be buf off = .error e) :
    buf.length < off + 2 ∧ e = .structError 2 (min 2 (buf.length - off)) := by
  unfold readU16be at h
  split at h
  · exact Except.noConfusion h
  · exact ⟨by omega, by cases h; rfl⟩

theorem readU32be_ok {buf : List Nat} {off v : Nat}
    (h : readU32be buf off = .ok v) :
    off + 4 ≤ buf.length ∧
      v = byteAt buf off * 16777216 + byteAt buf (off + 1) * 65536 +
          byteAt buf (off + 2) * 256 + byteAt buf (off + 3) := by
  unfold readU32be at h
  split at h
  · exact ⟨by assumption, by cases h; rfl⟩
  · exact Except.noConfusion h

theorem readU32be_err {buf : List Nat} {off : Nat} {e : PErr}
    (h : readU32be buf off = .error e) :
    buf.length < off + 4 ∧ e = .structError 4 (min 4 (buf.length - off)) := by
  unfold readU32be at h
  split at h
  · exact Except.noConfusion h
  · exact ⟨by omega, by cases h; rfl⟩

theorem readI8_ok {buf : List Nat} {off : Nat} {v : Int}
    (h : readI8 buf off = .ok v) :
    off + 1 ≤ buf.length ∧
      v = (if byteAt buf off < 128 then (byteAt buf off : Int)
           else (byteAt buf off : Int) - 256) := by
  unfold readI8 at h
  split at h
  · exact ⟨by assumption, by cases h; rfl⟩
  · exact Except.noConfusion h

theorem readI8_err {buf : List Nat} {off : Nat} {e : PErr}
    (h : readI8 buf off = .error e) :
    buf.length < off + 1 ∧ e = .structError 1 (min 1 (buf.length - off)) := by
  unfold readI8 at h
  split at h
  · exact Except.noConfusion h
  · exact ⟨by omega, by cases h; rfl⟩

theorem byteAt_mem {buf : List Nat} {off : Nat} (h : off < buf.length) :
    byteAt buf off ∈ buf := by
  have : byteAt buf off = buf.get ⟨off, h⟩ := by
    simp [byteAt, List.getD_eq_getElem?_getD, List.getElem?_eq_getElem h]
  rw [this]
  exact List.get_mem buf off h

theorem exceptMap_ok {α β : Type} {e : Except PErr α} {f : α → β} {b : β}
    (h : e.map f = .ok b) : ∃ a, e = .ok a ∧ f a = b := by
  cases e with
  | ok a => exact ⟨a, rfl, by cases h; rfl⟩
  | error err => exact Except.noConfusion h

theorem exceptMap_err {α β : Type} {e : Except PErr α} {f : α → β} {err : PErr}
    (h : e.map f = .error err) : e = .error err := by
  cases e with
  | ok a => exact Except.noConfusion h
  | error e0 => cases h; rfl

theorem parseLayer_ok {buf : List Nat} {off m : Nat} {l : Layer} {o2 m2 : Nat}
    (h : parseLayer buf off m = .ok (l, o2, m2)) :
    readU16be buf off = .ok l.rect.x ∧
    readU16be buf (off + 2) = .ok l.rect.y ∧
    readU16be buf (off + 4) = .ok l.rect.w ∧
    readU16be buf (off + 6) = .ok l.rect.h ∧
    readU32be buf (off + 8) = .ok l.packed_raw ∧
    l.sprite_index = unpackSprite l.packed_raw ∧
    l.x_offset = unpackX l.packed_raw ∧
    l.y_offset = unpackY l.packed_raw ∧
    l.transform = unpackT l.packed_raw ∧
    o2 = off + 12 ∧
    m2 = Nat.max m l.sprite_index := by
  unfold parseLayer at h
  obtain ⟨rx, hrx, h⟩ := exceptBind_ok h
  obtain ⟨ry, hry, h⟩ := exceptBind_ok h
  obtain ⟨rw, hrw, h⟩ := exceptBind_ok h
  obtain ⟨rh, hrh, h⟩ := exceptBind_ok h
  obtain ⟨p, hp, h⟩ := exceptBind_ok h
  cases h
  refine ⟨hrx, hry, hrw, hrh, hp, rfl, rfl, rfl, rfl, rfl, ?_⟩
  show (if unpackSprite p > m then unpackSprite p else m)
      = Nat.max m (unpackSprite p)
  split_ifs with hgt
  · exact (Nat.max_eq_right (Nat.le_of_lt hgt)).symm
  · exact (Nat.max_eq_left (Nat.le_of_not_lt hgt)).symm

theorem parseLayer_err {buf : List Nat} {off m : Nat} {e : PErr}
    (h : parseLayer buf off m = .error e) : RuntimeErr e := by
  unfold parseLayer at h
  rcases exceptBind_err h with h | ⟨rx, _, h⟩
  · exact .inr ⟨_, _, (readU16be_err h).2⟩
  rcases exceptBind_err h with h | ⟨ry, _, h⟩
  · exact .inr ⟨_, _, (readU16be_err h).2⟩
  rcases exceptBind_err h with h | ⟨rw, _, h⟩
  · exact .inr ⟨_, _, (readU16be_err h).2⟩
  rcases exceptBind_err h with h | ⟨rh, _, h⟩
  · exact .inr ⟨_, _, (readU16be_err h).2⟩
  rcases exceptBind_err h with h | ⟨p, _, h⟩
  · exact .inr ⟨_, _, (readU32be_err h).2⟩
  exact Except.noConfusion h

theorem parseCount_length {α : Type}
    {f : Nat → Nat → Nat → Except PErr (α × Nat × Nat)} {n : Nat} :
    ∀ {i off m xs o2 m2}, parseCount f i n off m = .ok (xs, o2, m2) →
      xs.length = n := by
  induction n with
  | zero =>
    intro i off m xs o2 m2 h
    unfold parseCount at h
    cases h
    rfl
  | succ k ih =>
    intro i off m xs o2 m2 h
    unfold parseCount at h
    obtain ⟨⟨a, off1, m1⟩, hf, h⟩ := exceptBind_ok h
    obtain ⟨⟨as, off2, mm⟩, hrec, h⟩ := exceptBind_ok h
    cases h
    simp [ih hrec]

theorem parseCount_mem {α : Type}
    {f : Nat → Nat → Nat → Except PErr (α × Nat × Nat)} {n : Nat} :
    ∀ {i off m xs o2 m2}, parseCount f i n off m = .ok (xs, o2, m2) →
      ∀ x ∈ xs, ∃ j o mm o3 m3, f j o mm = .ok (x, o3, m3) := by
  induction n with
  | zero =>
    intro i off m xs o2 m2 h
    unfold parseCount at h
    cases h
    intro x hx
    exact absurd hx (List.not_mem_nil x)
  | succ k ih =>
    intro i off m xs o2 m2 h
    unfold parseCount at h
    obtain ⟨⟨a, off1, m1⟩, hf, h⟩ := exceptBind_ok h
    obtain ⟨⟨as, off2, mm⟩, hrec, h⟩ := exceptBind_ok h
    cases h
    intro x hx
    rcases List.mem_cons.1 hx with rfl | hx
    · exact ⟨i, off, m, off1, m1, hf⟩
    · exact ih hrec x hx

theorem parseCount_err {α : Type}
    {f : Nat → Nat → Nat → Except PErr (α × Nat × Nat)}
    (hf : ∀ j o mm e, f j o mm = .error e → RuntimeErr e) {n : Nat} :
    ∀ {i off m e}, parseCount f i n off m = .error e → RuntimeErr e := by
  induction n with
  | zero =>
    intro i off m e h
    unfold parseCount at h
    exact Except.noConfusion h
  | succ k ih =>
    intro i off m e h
    unfold parseCount at h
    rcases exceptBind_err h with h | ⟨⟨a, off1, m1⟩, _, h⟩
    · exact hf _ _ _ _ h
    rcases exceptBind_err h with h | ⟨⟨as, off2, mm⟩, _, h⟩
    · exact ih h
    exact Except.noConfusion h

theorem parseCount_fold {α : Type}
    {f : Nat → Nat → Nat → Except PErr (α × Nat × Nat)} (g : α → List Nat)
    (hf : ∀ j o mm x o3 m3, f j o mm = .ok (x, o3, m3) →
      m3 = (g x).foldl Nat.max mm) {n : Nat} :
    ∀ {i off m xs o2 m2}, parseCount f i n off m = .ok (xs, o2, m2) →
      m2 = ((xs.map g).flatten).foldl Nat.max m := by
  induction n with
  | zero =>
    intro i off m xs o2 m2 h
    unfold parseCount at h
    cases h
    rfl
  | succ k ih =>
    intro i off m xs o2 m2 h
    unfold parseCount at h
    obtain ⟨⟨a, off1, m1⟩, hf1, h⟩ := exceptBind_ok h
    obtain ⟨⟨as, off2, mm⟩, hrec, h⟩ := exceptBind_ok h
    cases h
    have h1 := hf _ _ _ _ _ _ hf1
    have h2 := ih hrec
    rw [h2, h1]
    simp [List.foldl_append]

theorem parseFrame_ok {buf : List Nat} {fid off m : Nat} {fr : Frame}
    {o2 m2 : Nat} (h : parseFrame buf fid off m = .ok (fr, o2, m2)) :
    readI8 buf off = .ok fr.delay ∧
    readByte buf (off + 1) = .ok fr.layers.length ∧
    fr.id = fid ∧
    parseCount (fun _ o mm => parseLayer buf o mm) 0 fr.layers.length
      (off + 2) m = .ok (fr.layers, o2, m2) := by
  unfold parseFrame at h
  obtain ⟨d, hd, h⟩ := exceptBind_ok h
  obtain ⟨nl, hnl, h⟩ := exceptBind_ok h
  obtain ⟨⟨layers, off1, m1⟩, hls, h⟩ := exceptBind_ok h
  cases h
  have hlen : layers.length = nl := parseCount_length hls
  exact ⟨hd, hlen ▸ hnl, rfl, hlen ▸ hls⟩

theorem parseFrame_err {buf : List Nat} {fid off m : Nat} {e : PErr}
    (h : parseFrame buf fid off m = .error e) : RuntimeErr e := by
  unfold parseFrame at h
  rcases exceptBind_err h with h | ⟨d, _, h⟩
  · exact .inr ⟨_, _, (readI8_err h).2⟩
  rcases exceptBind_err h with h | ⟨nl, _, h⟩
  · exact .inl (readByte_err h).2
  rcases exceptBind_err h with h | ⟨⟨layers, off1, m1⟩, _, h⟩
  · exact parseCount_err (fun _ o mm e' he' => parseLayer_err he') h
  exact Except.noConfusion h

theorem parseFrame_fold {buf : List Nat} {fid off m : Nat} {fr : Frame}
    {o2 m2 : Nat} (h : parseFrame buf fid off m = .ok (fr, o2, m2)) :
    m2 = fr.spriteIndices.foldl Nat.max m := by
  obtain ⟨-, -, -, hls⟩ := parseFrame_ok h
  have := parseCount_fold (fun l => [l.sprite_index])
    (fun _ o mm x o3 m3 hx => by
      have := (parseLayer_ok hx).2.2.2.2.2.2.2.2.2.2
      simpa using this) hls
  rw [this]
  congr 1
  unfold Frame.spriteIndices
  induction fr.layers with
  | nil => rfl
  | cons a as ih => simp_all

theorem parseAnim_ok {buf : List Nat} {aid off m : Nat} {a : Animation}
    {o2 m2 : Nat} (h : parseAnim buf aid off m = .ok (a, o2, m2)) :
    readByte buf off = .ok a.frames.length ∧
    a.id = aid ∧
    parseCount (parseFrame buf) 0 a.frames.length (off + 1) m
      = .ok (a.frames, o2, m2) := by
  unfold parseAnim at h
  obtain ⟨nf, hnf, h⟩ := exceptBind_ok h
  obtain ⟨⟨frames, off1, m1⟩, hfs, h⟩ := exceptBind_ok h
  cases h
  have hlen : frames.length = nf := parseCount_length hfs
  exact ⟨hlen ▸ hnf, rfl, hlen ▸ hfs⟩

theorem parseAnim_err {buf : List Nat} {aid off m : Nat} {e : PErr}
    (h : parseAnim buf aid off m = .error e) : RuntimeErr e := by
  unfold parseAnim at h
  rcases exceptBind_err h with h | ⟨nf, _, h⟩
  · exact .inl (readByte_err h).2
  rcases exceptBind_err h with h | ⟨⟨frames, off1, m1⟩, _, h⟩
  · exact parseCount_err (fun _ o mm e' he' => parseFrame_err he') h
  exact Except.noConfusion h

theorem parseAnim_fold {buf : List Nat} {aid off m : Nat} {a : Animation}
    {o2 m2 : Nat} (h : parseAnim buf aid off m = .ok (a, o2, m2)) :
    m2 = a.spriteIndices.foldl Nat.max m := by
  obtain ⟨-, -, hfs⟩ := parseAnim_ok h
  exact parseCount_fold Frame.spriteIndices
    (fun _ o mm x o3 m3 hx => parseFrame_fold hx) hfs

theorem parseHeader_ok {buf : List Nat} {pid : Nat} {np : Option Nat}
    {na off0 : Nat} (h : parseHeader buf pid = .ok (np, na, off0)) :
    (pid = 0 → np = some (byteAt buf 0) ∧ 0 < buf.length ∧
      readU16be buf 1 = .ok na ∧ off0 = 3) ∧
    (pid ≠ 0 → np = none ∧ readU16be buf 0 = .ok na ∧ off0 = 2) := by
  unfold parseHeader at h
  split at h
  · obtain ⟨b, hb, h⟩ := exceptBind_ok h
    obtain ⟨v, hv, h⟩ := exceptBind_ok h
    cases h
    obtain ⟨hlt, rfl⟩ := readByte_ok hb
    constructor
    · intro _
      exact ⟨rfl, hlt, hv, rfl⟩
    · intro hne
      exact absurd (by assumption) hne
  · obtain ⟨v, hv, h⟩ := exceptBind_ok h
    cases h
    constructor
    · intro h0
      exact absurd h0 (by assumption)
    · intro _
      exact ⟨rfl, hv, rfl⟩

theorem parseHeader_err {buf : List Nat} {pid : Nat} {e : PErr}
    (h : parseHeader buf pid = .error e) : RuntimeErr e := by
  unfold parseHeader at h
  split at h
  · rcases exceptBind_err h with h | ⟨b, _, h⟩
    · exact .inl (readByte_err h).2
    rcases exceptBind_err h with h | ⟨v, _, h⟩
    · exact .inr ⟨_, _, (readU16be_err h).2⟩
    exact Except.noConfusion h
  · rcases exceptBind_err h with h | ⟨v, _, h⟩
    · exact .inr ⟨_, _, (readU16be_err h).2⟩
    exact Except.noConfusion h

theorem parseDatFull_ok {buf : List Nat} {pid : Nat} {pkg : Package}
    {o2 : Nat} {tr : List String}
    (h : parseDatFull buf pid = .ok (pkg, o2, tr)) :
    ∃ off0,
      parseHeader buf pid = .ok (pkg.num_packages, pkg.num_animations, off0) ∧
      parseCount (parseAnim buf) 0 pkg.num_animations off0 0
        = .ok (pkg.animations, o2, pkg.max_sprite_index) ∧
      pkg.package_id = pid := by
  unfold parseDatFull at h
  obtain ⟨⟨np, na, off0⟩, hh, h⟩ := exceptBind_ok h
  obtain ⟨⟨anims, offEnd, m⟩, ha, h⟩ := exceptBind_ok h
  cases h
  exact ⟨off0, hh, ha, rfl⟩

theorem parseDatFull_err {buf : List Nat} {pid : Nat} {e : PErr}
    (h : parseDatFull buf pid = .error e) : RuntimeErr e := by
  unfold parseDatFull at h
  rcases exceptBind_err h with h | ⟨⟨np, na, off0⟩, _, h⟩
  · exact parseHeader_err h
  rcases exceptBind_err h with h | ⟨⟨anims, offEnd, m⟩, _, h⟩
  · exact parseCount_err (fun _ o mm e' he' => parseAnim_err he') h
  exact Except.noConfusion h

theorem parse_dat_ok {buf : List Nat} {pid : Nat} {pkg : Package}
    (h : parse_dat buf pid = .ok pkg) :
    ∃ o2 tr, parseDatFull buf pid = .ok (pkg, o2, tr) := by
  unfold parse_dat at h
  obtain ⟨⟨p, o, t⟩, he, hf⟩ := exceptMap_ok h
  exact ⟨o, t, by cases hf; exact he⟩

theorem parse_dat_err {buf : List Nat} {pid : Nat} {e : PErr}
    (h : parse_dat buf pid = .error e) : RuntimeErr e :=
  parseDatFull_err (exceptMap_err h)

theorem unpackSprite_le (p : Nat) : unpackSprite p ≤ 511 :=
  Nat.le_of_lt_succ (Nat.lt_succ_of_le (Nat.and_le_right))

theorem unpackT_le (p : Nat) : unpackT p ≤ 7 :=
  Nat.and_le_right

theorem unpackX_range (p : Nat) : -512 ≤ unpackX p ∧ unpackX p ≤ 511 := by
  have h : (p >>> 13) &&& 0x3FF ≤ 1023 := Nat.and_le_right
  unfold unpackX
  omega

theorem unpackY_range (p : Nat) : -512 ≤ unpackY p ∧ unpackY p ≤ 511 := by
  have h : (p >>> 3) &&& 0x3FF ≤ 1023 := Nat.and_le_right
  unfold unpackY
  omega

theorem readI8_range {buf : List Nat} {off : Nat} {v : Int}
    (hB : BytesOk buf) (h : readI8 buf off = .ok v) :
    -128 ≤ v ∧ v ≤ 127 := by
  unfold readI8 at h
  split at h
  · have hb : byteAt buf off < 256 := hB _ (byteAt_mem (by omega))
    cases h
    split <;> omega
  · exact Except.noConfusion h

theorem readU32be_lt {buf : List Nat} {off v : Nat}
    (hB : BytesOk buf) (h : readU32be buf off = .ok v) :
    v < 4294967296 := by
  obtain ⟨hle, rfl⟩ := readU32be_ok h
  have h0 : byteAt buf off < 256 := hB _ (byteAt_mem (by omega))
  have h1 : byteAt buf (off + 1) < 256 := hB _ (byteAt_mem (by omega))
  have h2 : byteAt buf (off + 2) < 256 := hB _ (byteAt_mem (by omega))
  have h3 : byteAt buf (off + 3) < 256 := hB _ (byteAt_mem (by omega))
  omega

theorem or_eq_add {b n : Nat} (a : Nat) (hb : b < 2 ^ n) :
    a * 2 ^ n ||| b = a * 2 ^ n + b := by
  rw [Nat.mul_comm]
  exact (Nat.mul_add_lt_is_or hb a).symm

theorem unpackSprite_div_mod (p : Nat) :
    unpackSprite p = p / 2 ^ 23 % 2 ^ 9 := by
  unfold unpackSprite
  rw [Nat.shiftRight_eq_div_pow]
  have h := Nat.and_pow_two_sub_one_eq_mod (p / 2 ^ 23) 9
  norm_num at h ⊢
  exact h

theorem unpackXfield_div_mod (p : Nat) :
    (p >>> 13) &&& 0x3FF = p / 2 ^ 13 % 2 ^ 10 := by
  rw [Nat.shiftRight_eq_div_pow]
  have h := Nat.and_pow_two_sub_one_eq_mod (p / 2 ^ 13) 10
  norm_num at h ⊢
  exact h

theorem unpackYfield_div_mod (p : Nat) :
    (p >>> 3) &&& 0x3FF = p / 2 ^ 3 % 2 ^ 10 := by
  rw [Nat.shiftRight_eq_div_pow]
  have h := Nat.and_pow_two_sub_one_eq_mod (p / 2 ^ 3) 10
  norm_num at h ⊢
  exact h

theorem unpackT_div_mod (p : Nat) : unpackT p = p % 2 ^ 3 := by
  unfold unpackT
  have h := Nat.and_pow_two_sub_one_eq_mod p 3
  norm_num at h ⊢
  exact h

theorem unpack_repack {p : Nat} (hp : p < 4294967296) :
    unpackSprite p <<< 23 ||| (unpackX p + 512).toNat <<< 13 |||
      (unpackY p + 512).toNat <<< 3 ||| unpackT p = p := by
  have hx : (unpackX p + 512).toNat = p / 2 ^ 13 % 2 ^ 10 := by
    unfold unpackX
    rw [unpackXfield_div_mod]
    omega
  have hy : (unpackY p + 512).toNat = p / 2 ^ 3 % 2 ^ 10 := by
    unfold unpackY
    rw [unpackYfield_div_mod]
    omega
  rw [hx, hy, unpackSprite_div_mod, unpackT_div_mod,
    Nat.shiftLeft_eq, Nat.shiftLeft_eq, Nat.shiftLeft_eq,
    Nat.or_assoc, Nat.or_assoc]
  have e1 : p / 2 ^ 3 % 2 ^ 10 * 2 ^ 3 ||| p % 2 ^ 3
      = p / 2 ^ 3 % 2 ^ 10 * 2 ^ 3 + p % 2 ^ 3 :=
    or_eq_add _ (Nat.mod_lt _ (by norm_num))
  rw [e1]
  have e2 : p / 2 ^ 13 % 2 ^ 10 * 2 ^ 13 |||
        (p / 2 ^ 3 % 2 ^ 10 * 2 ^ 3 + p % 2 ^ 3)
      = p / 2 ^ 13 % 2 ^ 10 * 2 ^ 13 +
        (p / 2 ^ 3 % 2 ^ 10 * 2 ^ 3 + p % 2 ^ 3) :=
    or_eq_add _ (by omega)
  rw [e2]
  have e3 : p / 2 ^ 23 % 2 ^ 9 * 2 ^ 23 |||
        (p / 2 ^ 13 % 2 ^ 10 * 2 ^ 13 +
          (p / 2 ^ 3 % 2 ^ 10 * 2 ^ 3 + p % 2 ^ 3))
      = p / 2 ^ 23 % 2 ^ 9 * 2 ^ 23 +
        (p / 2 ^ 13 % 2 ^ 10 * 2 ^ 13 +
          (p / 2 ^ 3 % 2 ^ 10 * 2 ^ 3 + p % 2 ^ 3)) :=
    or_eq_add _ (by omega)
  rw [e3]
  omega

theorem parse_frame_source {buf : List Nat} {pid : Nat} {pkg : Package}
    (h : parse_dat buf pid = .ok pkg) :
    ∀ a ∈ pkg.animations, ∀ fr ∈ a.frames,
      ∃ fid off m o2 m2, parseFrame buf fid off m = .ok (fr, o2, m2) := by
  obtain ⟨o2, tr, hfull⟩ := parse_dat_ok h
  obtain ⟨off0, -, hanims, -⟩ := parseDatFull_ok hfull
  intro a ha fr hfr
  obtain ⟨aid, ao, am, ao2, am2, hA⟩ := parseCount_mem hanims a ha
  obtain ⟨-, -, hframes⟩ := parseAnim_ok hA
  obtain ⟨fid, fo, fm, fo2, fm2, hF⟩ := parseCount_mem hframes fr hfr
  exact ⟨fid, fo, fm, fo2, fm2, hF⟩

theorem parse_layer_source {buf : List Nat} {pid : Nat} {pkg : Package}
    (h : parse_dat buf pid = .ok pkg) :
    ∀ a ∈ pkg.animations, ∀ fr ∈ a.frames, ∀ l ∈ fr.layers,
      ∃ off m o2 m2, parseLayer buf off m = .ok (l, o2, m2) := by
  intro a ha fr hfr l hl
  obtain ⟨fid, fo, fm, fo2, fm2, hF⟩ := parse_frame_source h a ha fr hfr
  obtain ⟨-, -, -, hlayers⟩ := parseFrame_ok hF
  obtain ⟨-, lo, lm, lo2, lm2, hL⟩ := parseCount_mem hlayers l hl
  exact ⟨lo, lm, lo2, lm2, hL⟩

/-- C1 counterexample: on a concrete buffer whose rect x bytes are
0x01 0x02, the decoder yields rect x = 258 — the big-endian value, the
same number `num_animations` would read from those bytes — not the
little-endian 513 the claim requires. -/
theorem rect_field_not_little_endian :
    parse_dat [0, 1, 1, 0, 1, 1, 2, 0, 0, 0, 0, 0, 0, 0, 0, 0, 0] 1 =
      .ok ⟨1, none, 1, [⟨0, [⟨0, 0,
        [⟨⟨258, 0, 0, 0⟩, 0, -512, -512, 0, 0⟩]⟩]⟩], 0⟩ ∧
    readU16be [1, 2] 0 = .ok 258 ∧
    readU16le [1, 2] 0 = .ok 513 ∧
    (258 : Nat) ≠ 513 := by decide

/-- C1 (amended): every multi-byte field of a layer record — the four
rect fields and the packed field — is read big-endian, exactly like
`num_animations`; the decoder applies a single global big-endian
interpretation, so a two-byte sequence decodes to the same numeric
value as a rect field and as `num_animations`. -/
theorem rect_fields_read_big_endian {buf : List Nat} {off m : Nat}
    {l : Layer} {o2 m2 : Nat} (h : parseLayer buf off m = .ok (l, o2, m2)) :
    l.rect.x = byteAt buf off * 256 + byteAt buf (off + 1) ∧
    l.rect.y = byteAt buf (off + 2) * 256 + byteAt buf (off + 3) ∧
    l.rect.w = byteAt buf (off + 4) * 256 + byteAt buf (off + 5) ∧
    l.rect.h = byteAt buf (off + 6) * 256 + byteAt buf (off + 7) ∧
    l.packed_raw = byteAt buf (off + 8) * 16777216 +
      byteAt buf (off + 9) * 65536 +
      byteAt buf (off + 10) * 256 + byteAt buf (off + 11) := by
  obtain ⟨hx, hy, hw, hh, hp, -⟩ := parseLayer_ok h
  exact ⟨(readU16be_ok hx).2, (readU16be_ok hy).2, (readU16be_ok hw).2,
    (readU16be_ok hh).2, (readU32be_ok hp).2⟩

/-- Witness for C1 (amended) at a concrete layer record. -/
theorem rect_fields_read_big_endian_witness :
    parseLayer [1, 2, 0, 0, 0, 0, 0, 0, 0, 0, 0, 0] 0 0 =
      .ok (⟨⟨258, 0, 0, 0⟩, 0, -512, -512, 0, 0⟩, 12, 0) ∧
    (258 : Nat) = byteAt [1, 2, 0, 0, 0, 0, 0, 0, 0, 0, 0, 0] 0 * 256 +
      byteAt [1, 2, 0, 0, 0, 0, 0, 0, 0, 0, 0, 0] 1 :=
  ⟨by decide, (rect_fields_read_big_endian
    (show parseLayer [1, 2, 0, 0, 0, 0, 0, 0, 0, 0, 0, 0] 0 0 =
      .ok (⟨⟨258, 0, 0, 0⟩, 0, -512, -512, 0, 0⟩, 12, 0) by decide)).1⟩

/-- C2 counterexample: a too-short buffer makes the decode fail with
the runtime error kinds (`IndexError` for the header byte,
`struct.error` for the 16-bit read), never the spec's structured
`OutOfBounds`. -/
theorem decode_error_kind_not_out_of_bounds :
    parse_dat [] 0 = .error .indexError ∧
    parse_dat [5] 0 = .error (.structError 2 0) ∧
    PErr.isOutOfBounds .indexError = false ∧
    PErr.isOutOfBounds (.structError 2 0) = false := by decide

/-- C2 (amended): every read fails exactly when it would consume bytes
past the end of the buffer, no partial decode is returned, and the
error is the Python runtime kind (`IndexError` for single-byte
subscripts, `struct.error` for multi-byte unpacks) rather than the
spec's `OutOfBounds`. -/
theorem decode_overrun_raises_runtime_error :
    (∀ buf off, (∃ v, readByte buf off = .ok v) ↔ off + 1 ≤ buf.length) ∧
    (∀ buf off, (∃ v, readU16be buf off = .ok v) ↔ off + 2 ≤ buf.length) ∧
    (∀ buf off, (∃ v, readU32be buf off = .ok v) ↔ off + 4 ≤ buf.length) ∧
    (∀ buf off, (∃ v, readI8 buf off = .ok v) ↔ off + 1 ≤ buf.length) ∧
    (∀ buf pid e, parse_dat buf pid = .error e →
      RuntimeErr e ∧ e.isOutOfBounds = false) := by
  refine ⟨?_, ?_, ?_, ?_, ?_⟩
  · intro buf off
    constructor
    · rintro ⟨v, hv⟩
      have := (readByte_ok hv).1
      omega
    · intro hle
      refine ⟨byteAt buf off, ?_⟩
      unfold readByte
      rw [if_pos (by omega : off < buf.length)]
  · intro buf off
    constructor
    · rintro ⟨v, hv⟩
      exact (readU16be_ok hv).1
    · intro hle
      exact ⟨byteAt buf off * 256 + byteAt buf (off + 1),
        by unfold readU16be; rw [if_pos hle]⟩
  · intro buf off
    constructor
    · rintro ⟨v, hv⟩
      exact (readU32be_ok hv).1
    · intro hle
      exact ⟨byteAt buf off * 16777216 + byteAt buf (off + 1) * 65536 +
          byteAt buf (off + 2) * 256 + byteAt buf (off + 3),
        by unfold readU32be; rw [if_pos hle]⟩
  · intro buf off
    constructor
    · rintro ⟨v, hv⟩
      exact (readI8_ok hv).1
    · intro hle
      exact ⟨if byteAt buf off < 128 then (byteAt buf off : Int)
          else (byteAt buf off : Int) - 256,
        by unfold readI8; rw [if_pos hle]⟩
  · intro buf pid e h
    have hr := parse_dat_err h
    refine ⟨hr, ?_⟩
    rcases hr with rfl | ⟨n, g, rfl⟩ <;> rfl

/-- Witness for C2 (amended): the empty buffer fails with a runtime
error kind that is not `OutOfBounds`. -/
theorem decode_overrun_raises_runtime_error_witness :
    RuntimeErr .indexError ∧ PErr.isOutOfBounds .indexError = false :=
  decode_overrun_raises_runtime_error.2.2.2.2 [] 0 .indexError (by decide)

/-- C3: every decoded layer's four sub-fields obey the claimed bit
formulas on its packed value, and packed = 0x00800000 extracts to
sprite 1, offsets −512, transform 0. -/
theorem packed_field_extraction_formulas {buf : List Nat} {off m : Nat}
    {l : Layer} {o2 m2 : Nat} (h : parseLayer buf off m = .ok (l, o2, m2)) :
    l.sprite_index = (l.packed_raw >>> 23) &&& 0x1FF ∧
    l.x_offset = (((l.packed_raw >>> 13) &&& 0x3FF : Nat) : Int) - 512 ∧
    l.y_offset = (((l.packed_raw >>> 3) &&& 0x3FF : Nat) : Int) - 512 ∧
    l.transform = l.packed_raw &&& 0x7 ∧
    unpackSprite 0x00800000 = 1 ∧ unpackX 0x00800000 = -512 ∧
    unpackY 0x00800000 = -512 ∧ unpackT 0x00800000 = 0 := by
  obtain ⟨-, -, -, -, -, h1, h2, h3, h4, -, -⟩ := parseLayer_ok h
  exact ⟨h1, h2, h3, h4, by decide, by decide, by decide, by decide⟩

/-- Witness for C3 at the concrete layer record of `bufEx`. -/
theorem packed_field_extraction_formulas_witness :
    parseLayer [0, 10, 0, 20, 0, 30, 0, 40, 0, 128, 0, 0] 0 0 =
      .ok (⟨⟨10, 20, 30, 40⟩, 1, -512, -512, 0, 8388608⟩, 12, 1) ∧
    (1 : Nat) = (8388608 >>> 23) &&& 0x1FF :=
  ⟨by decide, (packed_field_extraction_formulas
    (show parseLayer [0, 10, 0, 20, 0, 30, 0, 40, 0, 128, 0, 0] 0 0 =
      .ok (⟨⟨10, 20, 30, 40⟩, 1, -512, -512, 0, 8388608⟩, 12, 1)
      by decide)).1⟩

/-- C4: re-packing the four extracted sub-fields of any layer of a
successful decode reproduces the original 32-bit packed value. -/
theorem repack_lossless {buf : List Nat} {pid : Nat} {pkg : Package}
    (hB : BytesOk buf) (h : parse_dat buf pid = .ok pkg) :
    ∀ a ∈ pkg.animations, ∀ fr ∈ a.frames, ∀ l ∈ fr.layers,
      repack l = l.packed_raw := by
  intro a ha fr hfr l hl
  obtain ⟨off, m, o2, m2, hL⟩ := parse_layer_source h a ha fr hfr l hl
  obtain ⟨-, -, -, -, hp, h1, h2, h3, h4, -, -⟩ := parseLayer_ok hL
  have hlt : l.packed_raw < 4294967296 := readU32be_lt hB hp
  unfold repack
  rw [h1, h2, h3, h4]
  exact unpack_repack hlt

/-- Witness for C4 on the concrete decode of `bufEx`. -/
theorem repack_lossless_witness :
    BytesOk bufEx ∧ repack layerEx = layerEx.packed_raw :=
  ⟨by decide, repack_lossless (by decide)
    (show parse_dat bufEx 0 = .ok pkgEx by decide)
    animEx (by decide) frameEx (by decide) layerEx (by decide)⟩

/-- C5: `num_packages` is read (one byte, cursor +1) exactly when
`package_id = 0`, `num_animations` is always the next two bytes
big-endian, the cursor after the header is 3 for package 0 and 2
otherwise, and `num_packages` appears in the output only for
package 0. -/
theorem header_layout {buf : List Nat} {pid : Nat} {res : Package}
    (h : parse_dat buf pid = .ok res) :
    (res.num_packages.isSome ↔ pid = 0) ∧
    (pid = 0 → res.num_packages = some (byteAt buf 0) ∧
      res.num_animations = byteAt buf 1 * 256 + byteAt buf 2) ∧
    (pid ≠ 0 → res.num_packages = none ∧
      res.num_animations = byteAt buf 0 * 256 + byteAt buf 1) ∧
    (∀ np na off0, parseHeader buf pid = .ok (np, na, off0) →
      off0 = if pid = 0 then 3 else 2) := by
  obtain ⟨o2, tr, hfull⟩ := parse_dat_ok h
  obtain ⟨off0, hh, -, -⟩ := parseDatFull_ok hfull
  have hH := parseHeader_ok hh
  by_cases hp : pid = 0
  · obtain ⟨hnp, hlen, hna, hoff⟩ := hH.1 hp
    refine ⟨⟨fun _ => hp, fun _ => by rw [hnp]; rfl⟩, ?_, ?_, ?_⟩
    · intro _
      exact ⟨hnp, (readU16be_ok hna).2⟩
    · intro hne
      exact absurd hp hne
    · intro np na off0' hh'
      rw [if_pos hp]
      exact ((parseHeader_ok hh').1 hp).2.2.2
  · obtain ⟨hnp, hna, hoff⟩ := hH.2 hp
    refine ⟨⟨fun hs => absurd hs (by rw [hnp]; exact Bool.false_ne_true),
      fun h0 => absurd h0 hp⟩, ?_, ?_, ?_⟩
    · intro h0
      exact absurd h0 hp
    · intro _
      exact ⟨hnp, (readU16be_ok hna).2⟩
    · intro np na off0' hh'
      rw [if_neg hp]
      exact ((parseHeader_ok hh').2 hp).2.2

/-- Witness for C5 on the 3-byte buffer. -/
theorem header_layout_witness :
    (Package.num_packages ⟨0, some 1, 0, [], 0⟩).isSome ↔ (0 : Nat) = 0 :=
  (header_layout
    (show parse_dat [1, 0, 0] 0 = .ok ⟨0, some 1, 0, [], 0⟩ by decide)).1

/-- C6: successful decodes contain exactly `num_animations` animations,
each animation exactly the frame count its `num_frames` byte declared,
and each frame exactly the layer count its `num_layers` byte declared. -/
theorem declared_counts_exact :
    (∀ buf pid res, parse_dat buf pid = .ok res →
      res.animations.length = res.num_animations) ∧
    (∀ buf aid off m a o2 m2, parseAnim buf aid off m = .ok (a, o2, m2) →
      readByte buf off = .ok a.frames.length) ∧
    (∀ buf fid off m fr o2 m2, parseFrame buf fid off m = .ok (fr, o2, m2) →
      readByte buf (off + 1) = .ok fr.layers.length) := by
  refine ⟨?_, ?_, ?_⟩
  · intro buf pid res h
    obtain ⟨o2, tr, hfull⟩ := parse_dat_ok h
    obtain ⟨off0, -, hanims, -⟩ := parseDatFull_ok hfull
    exact parseCount_length hanims
  · intro buf aid off m a o2 m2 h
    exact (parseAnim_ok h).1
  · intro buf fid off m fr o2 m2 h
    exact (parseFrame_ok h).2.1

/-- Witness for C6 on the concrete decode of `bufEx`. -/
theorem declared_counts_exact_witness :
    (Package.animations pkgEx).length = pkgEx.num_animations :=
  declared_counts_exact.1 bufEx 0 pkgEx (by decide)

/-- C7: in every successful decode of a byte buffer, sprite indices lie
in [0,511], transforms in [0,7], x/y offsets in [−512,511], and every
frame delay, read as a signed byte, lies in [−128,127]. -/
theorem decoded_value_ranges {buf : List Nat} {pid : Nat} {res : Package}
    (hB : BytesOk buf) (h : parse_dat buf pid = .ok res) :
    ∀ a ∈ res.animations, ∀ fr ∈ a.frames,
      (-128 ≤ fr.delay ∧ fr.delay ≤ 127) ∧
      ∀ l ∈ fr.layers,
        l.sprite_index ≤ 511 ∧ l.transform ≤ 7 ∧
        (-512 ≤ l.x_offset ∧ l.x_offset ≤ 511) ∧
        (-512 ≤ l.y_offset ∧ l.y_offset ≤ 511) := by
  intro a ha fr hfr
  constructor
  · obtain ⟨fid, fo, fm, fo2, fm2, hF⟩ := parse_frame_source h a ha fr hfr
    obtain ⟨hd, -, -, -⟩ := parseFrame_ok hF
    exact readI8_range hB hd
  · intro l hl
    obtain ⟨off, m, o2, m2, hL⟩ := parse_layer_source h a ha fr hfr l hl
    obtain ⟨-, -, -, -, -, h1, h2, h3, h4, -, -⟩ := parseLayer_ok hL
    refine ⟨?_, ?_, ?_, ?_⟩
    · rw [h1]
      exact unpackSprite_le _
    · rw [h4]
      exact unpackT_le _
    · rw [h2]
      exact unpackX_range _
    · rw [h3]
      exact unpackY_range _

/-- Witness for C7 on the concrete decode of `bufEx` (delay −5). -/
theorem decoded_value_ranges_witness :
    -128 ≤ frameEx.delay ∧ frameEx.delay ≤ 127 :=
  ((decoded_value_ranges (by decide)
    (show parse_dat bufEx 0 = .ok pkgEx by decide))
    animEx (by decide) frameEx (by decide)).1

/-- C8: the 3-byte buffer 01 00 00 decodes for package 0 to
`num_packages = 1`, `num_animations = 0`, no animations, with 3 bytes
consumed (as the Bytes-read diagnostic line reports). -/
theorem minimal_buffer_decode :
    parseDatFull [1, 0, 0] 0 =
      .ok (⟨0, some 1, 0, [], 0⟩, 3,
        ["Num packages: 1", "Num animations: 0", "Max sprite index: 0",
         "Bytes read: 3, File size: 3"]) := by decide

/-- C9 (amended): the decode computation is deterministic — the same
buffer and package id always produce the same result (package, bytes
read and print trace alike). -/
theorem decode_deterministic {buf : List Nat} {pid : Nat}
    {r1 r2 : Except PErr (Package × Nat × List String)}
    (h1 : parseDatFull buf pid = r1) (h2 : parseDatFull buf pid = r2) :
    r1 = r2 := by
  rw [← h1, ← h2]

/-- Witness for C9 (amended) on a concrete buffer. -/
theorem decode_deterministic_witness :
    Except.ok ((⟨0, some 2, 0, [], 0⟩ : Package), 3,
      ["Num packages: 2", "Num animations: 0", "Max sprite index: 0",
       "Bytes read: 3, File size: 3"]) = parseDatFull [2, 0, 0] 0 :=
  decode_deterministic (by decide) rfl

/-- C9 counterexample: the operation is not free of side effects beyond
the returned `Package` — a successful run prints diagnostic lines
(modelled as the trace component), so its stdout output is non-empty. -/
theorem decode_emits_print_trace :
    traceOf (parseDatFull [1, 0, 0] 0) ≠ [] := by decide

/-- C10: `max_sprite_idx` starts at 0 and is only ever raised, so the
reported `max_sprite_index` is the max-fold of 0 over all decoded
sprite indices in walk order; with no layers it is 0. -/
theorem max_sprite_index_is_fold_max {buf : List Nat} {pid : Nat}
    {res : Package} (h : parse_dat buf pid = .ok res) :
    res.max_sprite_index = res.spriteIndices.foldl Nat.max 0 ∧
    (res.spriteIndices = [] → res.max_sprite_index = 0) := by
  obtain ⟨o2, tr, hfull⟩ := parse_dat_ok h
  obtain ⟨off0, -, hanims, -⟩ := parseDatFull_ok hfull
  have hfold : res.max_sprite_index = res.spriteIndices.foldl Nat.max 0 :=
    parseCount_fold Animation.spriteIndices
      (fun _ o mm x o3 m3 hx => parseAnim_fold hx) hanims
  refine ⟨hfold, fun hnil => ?_⟩
  rw [hfold, hnil]
  rfl

/-- Witness for C10 on the empty package decode. -/
theorem max_sprite_index_is_fold_max_witness :
    Package.max_sprite_index ⟨0, some 1, 0, [], 0⟩ =
      (Package.spriteIndices ⟨0, some 1, 0, [], 0⟩).foldl Nat.max 0 :=
  (max_sprite_index_is_fold_max
    (show parse_dat [1, 0, 0] 0 = .ok ⟨0, some 1, 0, [], 0⟩ by decide)).1
